import Mathlib

/-!
Shallow embedding of the GitHub metrics aggregation pipeline of
`src/lib/db.ts` (TeamVisionK): repository discovery (`scanGithubRepos`),
listing pagination (`fetchGithubReposFromApi`), the refresh entry point
(`refreshGithubMetrics`) with its snapshot / windowed-commit / cloned-LOC
passes, and the read-back (`getGithubMetrics`).

Modelling conventions:
- JavaScript objects whose fields may be absent become structures of
  `Option` fields; the spread-merge `{...old, f: v}` becomes a structure
  update.
- Timestamps (`new Date()`, ISO strings) are epoch milliseconds (`Int`);
  adjacent `new Date()` calls read the same clock value (time advances only
  at I/O).  The display sentinel "N/A" is modelled as `none`.
- Network I/O is an oracle record of pure functions; a fetch that fails or
  returns non-2xx is `none` / a non-ok page.
- The persisted metrics store (one row per periodKey, INSERT OR REPLACE) is
  an association list.
-/

namespace TeamVisionK

/-- Repository reference as produced by discovery / stored in config
(`GithubRepoData` in the source): `url` and `fullName` may be absent. -/
structure GithubRepoData where
  id : String
  name : String
  url : Option String
  fullName : Option String
deriving DecidableEq

/-- One persisted metrics record (`GithubMetricsPeriodData`): every field is
optional, as in the TypeScript interface. -/
structure PeriodData where
  info : Option String
  apiTotalBytes : Option Nat
  apiBytesByLanguage : Option (List (String × Nat))
  apiEstimatedTotalLines : Option Nat
  apiEstimatedLinesByLanguage : Option (List (String × Nat))
  apiProcessedRepoFullNames : Option (List String)
  apiLastRefreshed : Option Int
  clonedActualTotalLines : Option Nat
  clonedActualLinesByLanguage : Option (List (String × Nat))
  clonedProcessedRepoFullNames : Option (List String)
  clonedLoCLastRefreshed : Option Int
  latestTags : Option (List (String × Int))
  linesAdded_period : Option Nat
  uniqueCommitters_period : Option Nat
  uniqueCommitterNames_period : Option (List String)
  periodStartDate : Option Int
  periodEndDate : Option Int
  periodLastRefreshed : Option Int
deriving DecidableEq

/-- The all-absent record: spread of `undefined` / the empty object. -/
def emptyPeriod : PeriodData :=
  ⟨none, none, none, none, none, none, none, none, none,
   none, none, none, none, none, none, none, none, none⟩

/-- Persisted store for one team: `github_team_metrics` rows keyed by
periodKey. -/
abbrev MetricsStore := List (String × PeriodData)

/-- Read one periodKey (SELECT ... WHERE periodKey = k). -/
def storeGet : MetricsStore → String → Option PeriodData
  | [], _ => none
  | (k, v) :: rest, key => if k = key then some v else storeGet rest key

/-- Write one periodKey (INSERT OR REPLACE). -/
def storeSet : MetricsStore → String → PeriodData → MetricsStore
  | [], key, v => [(key, v)]
  | (k, w) :: rest, key, v =>
      if k = key then (key, v) :: rest else (k, w) :: storeSet rest key v

theorem storeGet_storeSet_self (st : MetricsStore) (k : String) (v : PeriodData) :
    storeGet (storeSet st k v) k = some v := by
  induction st with
  | nil => simp [storeSet, storeGet]
  | cons hd tl ih =>
      by_cases h : hd.1 = k
      · simp [storeSet, storeGet, h]
      · simp [storeSet, storeGet, h, ih]

theorem storeGet_storeSet_other (st : MetricsStore) (k k' : String) (v : PeriodData)
    (hne : k' ≠ k) : storeGet (storeSet st k v) k' = storeGet st k' := by
  have hne' : ¬k = k' := fun h => hne h.symm
  induction st with
  | nil => simp [storeSet, storeGet, hne']
  | cons hd tl ih =>
      by_cases h : hd.1 = k
      · obtain ⟨k1, v1⟩ := hd
        simp only at h
        subst h
        simp [storeSet, storeGet, hne']
      · obtain ⟨k1, v1⟩ := hd
        simp only at h
        by_cases h2 : k1 = k'
        · simp [storeSet, storeGet, h, h2, hne]
        · simp [storeSet, storeGet, h, h2, ih]

/-- JS truthiness of an optional string configuration field: absent and the
empty string are both falsy. -/
def jsTruthy : Option String → Bool
  | none => false
  | some s => !s.isEmpty

/-- ESTIMATED_BYTES_PER_LINE constant from the source. -/
def ESTIMATED_BYTES_PER_LINE : Nat := 50

/-- Math.round of `n / d` for natural `n`, `d > 0` (JS rounds half toward
positive infinity, which for non-negative arguments is `(n + d / 2) / d` in
integer division). -/
def jsRoundDiv (n d : Nat) : Nat := (n + d / 2) / d

/-- Add bytes to a language histogram, JS-object style:
`hist[lang] = (hist[lang] || 0) + b` (update in place, else append). -/
def addLang : List (String × Nat) → String → Nat → List (String × Nat)
  | [], l, b => [(l, b)]
  | (k, v) :: rest, l, b =>
      if k = l then (k, v + b) :: rest else (k, v) :: addLang rest l b

/-- Sum of the histogram values. -/
def sumVals : List (String × Nat) → Nat
  | [] => 0
  | (_, v) :: rest => v + sumVals rest

theorem sumVals_addLang (h : List (String × Nat)) (l : String) (b : Nat) :
    sumVals (addLang h l b) = sumVals h + b := by
  induction h with
  | nil => simp [addLang, sumVals]
  | cons hd tl ih =>
      by_cases hk : hd.1 = l
      · simp [addLang, hk, sumVals]
        omega
      · simp [addLang, hk, sumVals, ih]
        omega

/-- Raw repository object from the listing API (`GithubApiRepo`). -/
structure GithubApiRepo where
  id : Nat
  name : String
  html_url : String
  full_name : String
deriving DecidableEq

/-- One HTTP response of the repository-listing endpoint: `ok` is the 2xx
flag, `body` is `some` array of repos or `none` when the body is not an
array, `next` is the URL extracted from the Link header entry with
rel="next" (if any). -/
structure ListingPage where
  ok : Bool
  body : Option (List GithubApiRepo)
  next : Option String
deriving DecidableEq

/-- Loop state of `fetchGithubReposFromApi`: `url` is `nextPageUrl`
(`none` once the while-guard is false), `failed` records a thrown error
(non-2xx status or non-array body), which also exits the loop. -/
structure FetchReposState where
  url : Option String
  allRepos : List GithubApiRepo
  failed : Option String
deriving DecidableEq

/-- Initial loop state: `nextPageUrl = apiUrl`, no repos accumulated. -/
def fetchReposInit (apiUrl : String) : FetchReposState :=
  ⟨some apiUrl, [], none⟩

/-- One iteration of the `while (nextPageUrl)` loop of
`fetchGithubReposFromApi`: fetch the page, throw on non-2xx or non-array,
otherwise append the page body and follow the rel="next" link.  There is no
iteration counter or visited-URL set in the source. -/
def fetchReposStep (server : String → ListingPage) (s : FetchReposState) : FetchReposState :=
  match s.url with
  | none => s
  | some u =>
      let page := server u
      if page.ok = false then
        { url := none, allRepos := s.allRepos,
          failed := some ("Failed to fetch repositories from " ++ u) }
      else
        match page.body with
        | none =>
            { url := none, allRepos := s.allRepos,
              failed := some ("Unexpected response format from GitHub API for URL " ++ u) }
        | some data =>
            { url := page.next, allRepos := s.allRepos ++ data, failed := none }

/-- A server that answers every request with 200, an empty repo array, and a
Link header echoing the same rel="next" URL. -/
def echoLinkServer (u : String) : String → ListingPage :=
  fun _ => ⟨true, some [], some u⟩

/-- Endpoint choice made by the middle branch of `scanGithubRepos` (root
reference with path segments, not already an API listing URL). -/
inductive ListingEndpoint
  | orgRepos (name : String)
  | userRepos (name : String)
deriving DecidableEq

/-- Response.ok of fetch: status in the 2xx range. -/
def probeStatusOk (status : Nat) : Bool := 200 ≤ status && status ≤ 299

/-- Body of the `try` block probing the organization endpoint in
`scanGithubRepos`: 2xx keeps the orgs listing, 404/403 selects the users
listing, any other status throws.  `probe` is `.error` when the fetch itself
rejects (network failure). -/
def orgProbeResolve (orgOrUser : String) (probe : Except String Nat) :
    Except String ListingEndpoint :=
  match probe with
  | .error e => .error e
  | .ok status =>
      if probeStatusOk status then .ok (.orgRepos orgOrUser)
      else if status = 404 ∨ status = 403 then .ok (.userRepos orgOrUser)
      else .error ("GitHub API error for orgs endpoint: status " ++ toString status)

/-- The probe together with its surrounding `catch`, which logs a warning
and falls back to the users endpoint for any thrown error. -/
def resolveOrgOrUserEndpoint (orgOrUser : String) (probe : Except String Nat) :
    ListingEndpoint :=
  match orgProbeResolve orgOrUser probe with
  | .ok r => r
  | .error _ => .userRepos orgOrUser

/-- Commit object as consumed by the windowed aggregator
(`GithubApiCommit`): the four identity sources tried in order, the
list-level stats additions when present, and the sha used for the detail
fetch. -/
structure ApiCommitEntry where
  authorLogin : Option String
  committerLogin : Option String
  commitAuthorName : Option String
  commitCommitterName : Option String
  statsAdditions : Option Nat
  sha : Option String
deriving DecidableEq

/-- JavaScript `x || y` on optional strings: `none` and the empty string
both fall through to `y`. -/
def jsOr : Option String → Option String → Option String
  | some s, y => if s.isEmpty then y else some s
  | none, y => y

/-- `commit.author?.login || commit.committer?.login ||
commit.commit?.author?.name || commit.commit?.committer?.name ||
'unknown_committer'`. -/
def resolveCommitterLogin (c : ApiCommitEntry) : String :=
  (jsOr c.authorLogin (jsOr c.committerLogin
    (jsOr c.commitAuthorName (jsOr c.commitCommitterName none)))).getD "unknown_committer"

/-- JS `Set.add`: append if not already present (insertion order kept). -/
def insertUnique (s : List String) (x : String) : List String :=
  if x ∈ s then s else s ++ [x]

/-- Line additions attributed to one commit: list-level stats if present,
else one per-commit detail fetch (`fetchCommitDetails`); a failed detail
fetch (or missing sha) contributes zero, and `commitStats?.additions` being
0 adds nothing either way. -/
def commitAdditions (fullName : String) (detail : String → String → Option Nat)
    (c : ApiCommitEntry) : Nat :=
  match c.statsAdditions with
  | some a => a
  | none =>
      match c.sha with
      | some sha => (detail fullName sha).getD 0
      | none => 0

/-- Per-commit body of the windowed aggregator: resolve the identity, add it
to the unique-committer set unless it is the sentinel, and accumulate the
additions. -/
def processCommit (fullName : String) (detail : String → String → Option Nat)
    (acc : Nat × List String) (c : ApiCommitEntry) : Nat × List String :=
  let login := resolveCommitterLogin c
  let committers := if login = "unknown_committer" then acc.2 else insertUnique acc.2 login
  (acc.1 + commitAdditions fullName detail c, committers)

/-- One response of the commit-listing endpoint: `commits = none` models a
non-array body (e.g. an object with an explanatory message), `next` the
rel="next" link of the Link header. -/
structure CommitPage where
  ok : Bool
  commits : Option (List ApiCommitEntry)
  next : Option String
deriving DecidableEq

/-- The `do ... while (commitsUrl && pageCommits.length > 0)` loop of the
windowed aggregator, consuming the server's successive responses: a non-2xx
or non-array page breaks out with the accumulator so far; otherwise the page
commits are folded in and the loop continues only if a next link is present
and the page was non-empty. -/
def commitRepoLoop (fullName : String) (detail : String → String → Option Nat) :
    List CommitPage → Nat × List String → Nat × List String
  | [], acc => acc
  | p :: rest, acc =>
      if p.ok = false then acc
      else
        match p.commits with
        | none => acc
        | some cs =>
            let acc2 := cs.foldl (processCommit fullName detail) acc
            if (p.next.getD "").isEmpty = false ∧ cs.length > 0 then
              commitRepoLoop fullName detail rest acc2
            else acc2

/-- State of the commit-pagination do/while loop viewed as a step machine
(for termination statements): `running` is the loop guard combined with the
two `break` paths. -/
structure CommitLoopState where
  url : String
  linesAdded : Nat
  committers : List String
  running : Bool
deriving DecidableEq

/-- One body execution of the commit do/while loop followed by the guard
evaluation. -/
def commitLoopStep (server : String → CommitPage) (fullName : String)
    (detail : String → String → Option Nat) (s : CommitLoopState) : CommitLoopState :=
  if s.running = false then s
  else
    let page := server s.url
    if page.ok = false then { s with running := false }
    else
      match page.commits with
      | none => { s with running := false }
      | some cs =>
          let acc := cs.foldl (processCommit fullName detail) (s.linesAdded, s.committers)
          let nextUrl := page.next.getD ""
          { url := nextUrl, linesAdded := acc.1, committers := acc.2,
            running := !nextUrl.isEmpty && !cs.isEmpty }

/-- Upstream I/O of one refresh call, as pure oracles: `langFetch` and
`tagsFetch` return `none` on a failed request, `tagsFetch` yields
(tagName, sha) pairs, `tagCommitDate` the committer date of a sha,
`cloneRun` the LOC result of a successful shallow clone (`none` = clone
error, clone timeout or read error), `commitPages` the successive
commit-listing responses for (fullName, periodKey), and `commitDetail` the
additions recovered by a per-commit detail fetch. -/
structure GithubOracle where
  langFetch : String → Option (List (String × Nat))
  tagsFetch : String → Option (List (String × String))
  tagCommitDate : String → String → Option Int
  cloneRun : String → Option (Nat × List (String × Nat))
  commitPages : String → String → List CommitPage
  commitDetail : String → String → Option Nat

/-- Accumulator of the snapshot (language + tags) loop. -/
structure SnapshotAcc where
  bytesByLanguage : List (String × Nat)
  totalBytes : Nat
  processed : List String
  tags : List (String × Int)

/-- Per-repository body of the snapshot loop: skip without a fullName, push
the fullName, fold the language histogram into the team-wide one (failures
skipped), and collect tags named `repoName/tagName` dated by the tag
commit's committer date with "now" as fallback. -/
def langTagStep (o : GithubOracle) (now : Int) (acc : SnapshotAcc) (r : GithubRepoData) :
    SnapshotAcc :=
  match r.fullName with
  | none => acc
  | some fn =>
      let acc1 := { acc with processed := acc.processed ++ [fn] }
      let acc2 :=
        match o.langFetch fn with
        | some langs =>
            langs.foldl (fun a p =>
              { a with bytesByLanguage := addLang a.bytesByLanguage p.1 p.2,
                       totalBytes := a.totalBytes + p.2 }) acc1
        | none => acc1
      match o.tagsFetch fn with
      | some tags =>
          { acc2 with tags := acc2.tags ++
              tags.map (fun t => (r.name ++ "/" ++ t.1, (o.tagCommitDate fn t.2).getD now)) }
      | none => acc2

/-- The snapshot collection loop over all repositories. -/
def langTagPass (o : GithubOracle) (repos : List GithubRepoData) (now : Int) : SnapshotAcc :=
  repos.foldl (langTagStep o now) ⟨[], 0, [], []⟩

/-- Insert a tag into a list sorted by date descending. -/
def insertTagDesc (t : String × Int) : List (String × Int) → List (String × Int)
  | [] => [t]
  | u :: rest => if u.2 ≤ t.2 then t :: u :: rest else u :: insertTagDesc t rest

/-- `overallLatestTags.sort((a,b) => date(b) - date(a))`. -/
def sortTagsDesc : List (String × Int) → List (String × Int)
  | [] => []
  | t :: rest => insertTagDesc t (sortTagsDesc rest)

/-- Filesystem events of the cloned LOC analyzer: creation/removal of the
uniquely named temporary clone directory (identified by a counter). -/
inductive FsEvent
  | created (dir : Nat)
  | removed (dir : Nat)
deriving DecidableEq

/-- Accumulator of the cloned LOC loop, including the filesystem trace. -/
structure CloneAcc where
  total : Nat
  byExt : List (String × Nat)
  processed : List String
  firstStamp : Option Int
  trace : List FsEvent
  nextDirId : Nat

/-- Fold a per-repository extension histogram into the team-wide one. -/
def mergeHist (h : List (String × Nat)) (entries : List (String × Nat)) :
    List (String × Nat) :=
  entries.foldl (fun a p => addLang a p.1 p.2) h

/-- Per-repository body of the cloned LOC loop: repositories without both a
url and fullName are skipped before any directory is created; otherwise
`tmp.dirSync` creates a fresh directory, the clone-and-count body either
succeeds (accumulate) or fails (clone error/timeout/read error: logged and
skipped), and the `finally` block removes the directory on both paths. -/
def clonePassStep (o : GithubOracle) (now : Int) (acc : CloneAcc) (r : GithubRepoData) :
    CloneAcc :=
  match r.url, r.fullName with
  | some _, some fn =>
      let d := acc.nextDirId
      let acc1 : CloneAcc :=
        { acc with trace := acc.trace ++ [FsEvent.created d], nextDirId := d + 1 }
      let acc2 :=
        match o.cloneRun fn with
        | some res =>
            { acc1 with total := acc1.total + res.1,
                        byExt := mergeHist acc1.byExt res.2,
                        processed := acc1.processed ++ [fn],
                        firstStamp := some (acc1.firstStamp.getD now) }
        | none => acc1
      { acc2 with trace := acc2.trace ++ [FsEvent.removed d] }
  | _, _ => acc

/-- The cloned LOC analysis loop over all repositories. -/
def clonePass (o : GithubOracle) (repos : List GithubRepoData) (now : Int) : CloneAcc :=
  repos.foldl (clonePassStep o now) ⟨0, [], [], none, [], 0⟩

/-- Accumulator of one window of the commit aggregator. -/
structure WindowAcc where
  linesAdded : Nat
  committers : List String
  processed : List String

/-- Per-repository body of one window: skip without a fullName, push the
fullName, then page through the commits for this (repository, window). -/
def windowRepoStep (o : GithubOracle) (key : String) (acc : WindowAcc) (r : GithubRepoData) :
    WindowAcc :=
  match r.fullName with
  | none => acc
  | some fn =>
      let acc1 := { acc with processed := acc.processed ++ [fn] }
      let res := commitRepoLoop fn o.commitDetail (o.commitPages fn key)
        (acc1.linesAdded, acc1.committers)
      { acc1 with linesAdded := res.1, committers := res.2 }

/-- Milliseconds per day; `startDate.setDate(endDate.getDate() - N)` in a
fixed-offset timezone subtracts exactly this many milliseconds per day. -/
def msPerDay : Int := 86400000

/-- Build and return the persisted record of one look-back window. -/
def windowPassOne (o : GithubOracle) (repos : List GithubRepoData) (now : Int)
    (key : String) (days : Nat) : PeriodData :=
  let endDate := now
  let startDate := now - (days : Int) * msPerDay
  let acc := repos.foldl (windowRepoStep o key) ⟨0, [], []⟩
  { emptyPeriod with
      linesAdded_period := some acc.linesAdded,
      uniqueCommitters_period := some acc.committers.length,
      uniqueCommitterNames_period := some acc.committers,
      periodStartDate := some startDate,
      periodEndDate := some endDate,
      periodLastRefreshed := some now,
      apiProcessedRepoFullNames := some acc.processed }

/-- The six fixed windows, exactly as listed in the source. -/
def periodsList : List (String × Nat) :=
  [("7days", 7), ("30days", 30), ("60days", 60),
   ("90days", 90), ("180days", 180), ("365days", 365)]

/-- Assemble the `overall_snapshot` record from the snapshot and cloned-LOC
accumulators. -/
def buildOverallSnapshot (snap : SnapshotAcc) (cl : CloneAcc) (now : Int) : PeriodData :=
  { emptyPeriod with
      apiTotalBytes := some snap.totalBytes,
      apiBytesByLanguage := some snap.bytesByLanguage,
      apiEstimatedTotalLines := some (jsRoundDiv snap.totalBytes ESTIMATED_BYTES_PER_LINE),
      apiEstimatedLinesByLanguage :=
        some (snap.bytesByLanguage.map (fun p => (p.1, jsRoundDiv p.2 ESTIMATED_BYTES_PER_LINE))),
      apiProcessedRepoFullNames := some snap.processed,
      apiLastRefreshed := some now,
      clonedActualTotalLines := some cl.total,
      clonedActualLinesByLanguage := some cl.byExt,
      clonedProcessedRepoFullNames := some cl.processed,
      clonedLoCLastRefreshed := cl.firstStamp,
      latestTags := some ((sortTagsDesc snap.tags).take 10) }

/-- Team GitHub configuration (`GithubConfigFormData`): root reference,
access credential, saved repository selection. -/
structure GithubConfigData where
  rootUrl : Option String
  accessToken : Option String
  selectedRepos : List GithubRepoData

/-- Result of one `refreshGithubMetrics` call: the returned `success` flag,
message and data map, the persisted store after the call, and the
filesystem trace of the cloned-LOC pass. -/
structure RefreshOutcome where
  success : Bool
  message : String
  data : MetricsStore
  store : MetricsStore
  trace : List FsEvent

/-- The missing-configuration short-circuit of `refreshGithubMetrics`:
annotate (not replace) the existing `overall_snapshot` and return failure,
with no other key touched and no network access. -/
def configMissingBranch (store : MetricsStore) (now : Int) : RefreshOutcome :=
  let msg := "GitHub configuration (Root URL or Access Token) not fully configured for this team."
  let prevOverall := (storeGet store "overall_snapshot").getD emptyPeriod
  { success := false, message := msg,
    data := storeSet store "overall_snapshot" { prevOverall with info := some msg },
    store := storeSet store "overall_snapshot"
      { prevOverall with info := some msg, apiLastRefreshed := some now },
    trace := [] }

/-- The empty-selection branch: clear all stored metrics for the team, then
write one informational `overall_snapshot`, and return success. -/
def noReposBranch (now : Int) (msg : String) : RefreshOutcome :=
  { success := true, message := msg,
    data := [("overall_snapshot", { emptyPeriod with info := some msg })],
    store := storeSet ([] : MetricsStore) "overall_snapshot"
      { emptyPeriod with info := some msg, apiLastRefreshed := some now },
    trace := [] }

/-- The body of `refreshGithubMetrics` (inside its outer try): config check,
repository-set resolution, snapshot pass, cloned-LOC pass, persist the
overall snapshot, then build and persist each of the six window records, and
finally read the store back as the returned data. -/
def refreshPipeline (store : MetricsStore) (config : Option GithubConfigData)
    (reposArg : Option (List GithubRepoData)) (o : GithubOracle) (now : Int) :
    RefreshOutcome :=
  match config with
  | none => configMissingBranch store now
  | some cfg =>
      if (jsTruthy cfg.accessToken && jsTruthy cfg.rootUrl) = false then
        configMissingBranch store now
      else
        let reposToProcess : Option (List GithubRepoData) :=
          match reposArg with
          | some (x :: xs) => some (x :: xs)
          | _ =>
              match cfg.selectedRepos with
              | x :: xs => some (x :: xs)
              | [] => none
        match reposToProcess with
        | none =>
            noReposBranch now
              "No repositories selected or configured for this team. GitHub metrics cleared."
        | some repos =>
            let snap := langTagPass o repos now
            let cl := clonePass o repos now
            let store2 := storeSet store "overall_snapshot" (buildOverallSnapshot snap cl now)
            let store3 := periodsList.foldl
              (fun st kd => storeSet st kd.1 (windowPassOne o repos now kd.1 kd.2)) store2
            { success := true,
              message := "GitHub metrics (API & Cloned LoC) refreshed and saved.",
              data := store3, store := store3, trace := cl.trace }

/-- The catch block of `refreshGithubMetrics`: keep the metrics read at
entry (re-reading the database only if that read was empty), annotate the
previous `overall_snapshot` with a failure message, persist it, and return a
well-formed failure result. -/
def refreshCatchHandler (entryStore partialStore : MetricsStore) (e : String) (now : Int) :
    RefreshOutcome :=
  let current := if entryStore.isEmpty then partialStore else entryStore
  let errorMessage :=
    if e.isEmpty then "An unexpected error occurred while refreshing GitHub metrics." else e
  let overall := (storeGet current "overall_snapshot").getD emptyPeriod
  let failMsg := "Refresh failed: " ++ errorMessage
  { success := false, message := errorMessage,
    data := storeSet current "overall_snapshot" { overall with info := some failMsg },
    store := storeSet partialStore "overall_snapshot"
      { overall with info := some failMsg, apiLastRefreshed := some now },
    trace := [] }

/-- The public entry point: run the pipeline; if an exception escapes it
(`pipe` returns the store as persisted so far and the error), the catch
handler produces the result instead of the exception propagating. -/
def refreshEntry (store : MetricsStore)
    (pipe : MetricsStore → MetricsStore × Except String RefreshOutcome) (now : Int) :
    RefreshOutcome :=
  match pipe store with
  | (_, .ok r) => r
  | (partialStore, .error e) => refreshCatchHandler store partialStore e now

/-- `refreshGithubMetrics` with the concrete (non-throwing) pipeline. -/
def refreshGithubMetricsModel (store : MetricsStore) (config : Option GithubConfigData)
    (reposArg : Option (List GithubRepoData)) (o : GithubOracle) (now : Int) :
    RefreshOutcome :=
  refreshEntry store
    (fun st =>
      let r := refreshPipeline st config reposArg o now
      (r.store, Except.ok r)) now

/-- Default record substituted for a missing `overall_snapshot` by
`getGithubMetrics` ("N/A" timestamps are modelled as `none`). -/
def defaultOverallRecord : PeriodData :=
  { emptyPeriod with
      info := some "No GitHub metrics data available. Configure GitHub settings and refresh.",
      apiTotalBytes := some 0, apiBytesByLanguage := some [],
      apiEstimatedTotalLines := some 0, apiEstimatedLinesByLanguage := some [],
      apiProcessedRepoFullNames := some [], clonedActualTotalLines := some 0,
      clonedActualLinesByLanguage := some [], clonedProcessedRepoFullNames := some [],
      latestTags := some [], linesAdded_period := some 0,
      uniqueCommitters_period := some 0, uniqueCommitterNames_period := some [] }

/-- Default record substituted for a missing window key by
`getGithubMetrics`. -/
def defaultPeriodRecord (p : String) : PeriodData :=
  { emptyPeriod with
      info := some ("No data for " ++ p ++ ". Refresh metrics."),
      linesAdded_period := some 0, uniqueCommitters_period := some 0,
      uniqueCommitterNames_period := some [], apiProcessedRepoFullNames := some [] }

/-- The per-field `|| default` normalization applied by `getGithubMetrics`
to every returned record. -/
def normalizeRecord (d : PeriodData) : PeriodData :=
  { info := d.info,
    apiTotalBytes := some (d.apiTotalBytes.getD 0),
    apiBytesByLanguage := some (d.apiBytesByLanguage.getD []),
    apiEstimatedTotalLines := some (d.apiEstimatedTotalLines.getD 0),
    apiEstimatedLinesByLanguage := some (d.apiEstimatedLinesByLanguage.getD []),
    apiProcessedRepoFullNames := some (d.apiProcessedRepoFullNames.getD []),
    apiLastRefreshed := d.apiLastRefreshed,
    clonedActualTotalLines := some (d.clonedActualTotalLines.getD 0),
    clonedActualLinesByLanguage := some (d.clonedActualLinesByLanguage.getD []),
    clonedProcessedRepoFullNames := some (d.clonedProcessedRepoFullNames.getD []),
    clonedLoCLastRefreshed := d.clonedLoCLastRefreshed,
    latestTags := some (d.latestTags.getD []),
    linesAdded_period := some (d.linesAdded_period.getD 0),
    uniqueCommitters_period := some (d.uniqueCommitters_period.getD 0),
    uniqueCommitterNames_period := some (d.uniqueCommitterNames_period.getD []),
    periodStartDate := d.periodStartDate,
    periodEndDate := d.periodEndDate,
    periodLastRefreshed := d.periodLastRefreshed }

/-- `getGithubMetrics`: read the store, fill `overall_snapshot` and every
window key with a default informational record when absent, then normalize
each record field-wise. -/
def getGithubMetricsModel (store : MetricsStore) : MetricsStore :=
  let base : MetricsStore :=
    ("overall_snapshot", (storeGet store "overall_snapshot").getD defaultOverallRecord) ::
      periodsList.map (fun kd => (kd.1, (storeGet store kd.1).getD (defaultPeriodRecord kd.1)))
  base.map (fun kv => (kv.1, normalizeRecord kv.2))

/-! Concrete fixtures used by witnesses and scenario evaluations. -/

/-- Oracle in which every upstream request fails / returns nothing. -/
def trivialOracle : GithubOracle :=
  ⟨fun _ => none, fun _ => none, fun _ _ => none, fun _ => none, fun _ _ => [], fun _ _ => none⟩

/-- Fixture repository with fullName `octo/alpha`. -/
def repoAlpha : GithubRepoData :=
  ⟨"1", "alpha", some "https://github.com/octo/alpha", some "octo/alpha"⟩

/-- Fixture repository with fullName `octo/beta`. -/
def repoBeta : GithubRepoData :=
  ⟨"2", "beta", some "https://github.com/octo/beta", some "octo/beta"⟩

/-- Fixture configuration with credentials present and no saved selection. -/
def emptySelectionConfig : GithubConfigData :=
  ⟨some "https://github.com/octo", some "tok", []⟩

/-! Supporting lemmas. -/

theorem fetchReposStep_echo_url (u : String) (st : FetchReposState) (h : st.url = some u) :
    (fetchReposStep (echoLinkServer u) st).url = some u := by
  simp [fetchReposStep, h, echoLinkServer]

theorem fetchRepos_echo_invariant (u : String) (n : Nat) :
    ((fetchReposStep (echoLinkServer u))^[n] (fetchReposInit u)).url = some u := by
  induction n with
  | zero => rfl
  | succ n ih =>
      rw [Function.iterate_succ_apply']
      exact fetchReposStep_echo_url u _ ih

/-! C1.  The repository-listing pagination loop of `fetchGithubReposFromApi`
has no iteration cap: against a server that echoes the same rel="next" link
on every page the while-guard stays true after every number of iterations,
so the loop never terminates (the spec requires bounded termination here —
code bug).  The commit pagination loop, in contrast, does stop as soon as no
next-page link is present or a page returns zero items. -/

/-- C1: against the echo server the listing loop of
`fetchGithubReposFromApi` is still running after any number n of iterations
(its `nextPageUrl` guard never becomes null), refuting bounded termination;
and one commit-pagination step with no next link or an empty page clears the
do/while guard. -/
theorem fetchRepos_pagination_termination :
    (∀ n : Nat,
      ((fetchReposStep (echoLinkServer "https://api.github.com/orgs/acme/repos"))^[n]
        (fetchReposInit "https://api.github.com/orgs/acme/repos")).url =
        some "https://api.github.com/orgs/acme/repos") ∧
    (∀ (server : String → CommitPage) (fullName : String)
        (detail : String → String → Option Nat) (s : CommitLoopState),
      s.running = true → (server s.url).ok = true →
      ∀ cs, (server s.url).commits = some cs →
        ((server s.url).next.getD "" = "" ∨ cs = []) →
        (commitLoopStep server fullName detail s).running = false) := by
  constructor
  · exact fun n => fetchRepos_echo_invariant _ n
  · intro server fullName detail s hrun hok cs hcs hstop
    simp only [commitLoopStep, hrun]
    simp only [hok, hcs, Bool.true_eq_false, if_false]
    rcases hstop with h1 | h1
    · simp [h1]
      exact fun hh => absurd hh (by decide)
    · simp [h1]

/-- C1 witness: the non-termination invariant evaluated at 5 iterations, and
the commit-loop exit evaluated at a concrete page with no next link. -/
theorem fetchRepos_pagination_termination_witness :
    ((fetchReposStep (echoLinkServer "https://api.github.com/orgs/acme/repos"))^[5]
      (fetchReposInit "https://api.github.com/orgs/acme/repos")).url =
      some "https://api.github.com/orgs/acme/repos" ∧
    (commitLoopStep (fun _ => ⟨true, some [], none⟩) "octo/alpha" (fun _ _ => none)
      ⟨"https://api.github.com/repos/octo/alpha/commits", 0, [], true⟩).running = false :=
  ⟨fetchRepos_pagination_termination.1 5,
   fetchRepos_pagination_termination.2 (fun _ => ⟨true, some [], none⟩) "octo/alpha"
     (fun _ _ => none) ⟨"https://api.github.com/repos/octo/alpha/commits", 0, [], true⟩
     rfl rfl [] rfl (Or.inl rfl)⟩

/-! C2.  Discovery probe fallback. -/

/-- C2 counterexample: a probe status of 500 (neither 2xx nor 404/403) makes
the `try` body throw, but the surrounding `catch` selects the
user-repositories endpoint anyway — discovery does not hard-fail, contrary
to the claim that only 404/403 fall back. -/
theorem scanProbe_status500_fallsBackToUser :
    orgProbeResolve "acme" (Except.ok 500) =
      Except.error "GitHub API error for orgs endpoint: status 500" ∧
    resolveOrgOrUserEndpoint "acme" (Except.ok 500) = ListingEndpoint.userRepos "acme" := by
  constructor <;> rfl

/-- C2 amended: a 2xx probe keeps the organization endpoint; every non-2xx
probe status — 404/403 directly, any other status via the thrown error being
caught — and every probe exception falls back to the user endpoint. -/
theorem scanProbe_fallback_on_any_failure (name : String) (probe : Except String Nat) :
    (∀ status, probe = Except.ok status → probeStatusOk status = true →
      resolveOrgOrUserEndpoint name probe = ListingEndpoint.orgRepos name) ∧
    (∀ status, probe = Except.ok status → probeStatusOk status = false →
      resolveOrgOrUserEndpoint name probe = ListingEndpoint.userRepos name) ∧
    (∀ e, probe = Except.error e →
      resolveOrgOrUserEndpoint name probe = ListingEndpoint.userRepos name) := by
  refine ⟨?_, ?_, ?_⟩
  · intro status hp hok
    subst hp
    simp [resolveOrgOrUserEndpoint, orgProbeResolve, hok]
  · intro status hp hok
    subst hp
    by_cases h44 : status = 404 ∨ status = 403
    · simp [resolveOrgOrUserEndpoint, orgProbeResolve, hok, h44]
    · simp [resolveOrgOrUserEndpoint, orgProbeResolve, hok, h44]
  · intro e hp
    subst hp
    simp [resolveOrgOrUserEndpoint, orgProbeResolve]

/-- C2 witness: the three probe outcomes evaluated at concrete statuses. -/
theorem scanProbe_fallback_on_any_failure_witness :
    resolveOrgOrUserEndpoint "acme" (Except.ok 200) = ListingEndpoint.orgRepos "acme" ∧
    resolveOrgOrUserEndpoint "acme" (Except.ok 404) = ListingEndpoint.userRepos "acme" ∧
    resolveOrgOrUserEndpoint "acme" (Except.error "network down") =
      ListingEndpoint.userRepos "acme" :=
  ⟨(scanProbe_fallback_on_any_failure "acme" (Except.ok 200)).1 200 rfl (by decide),
   (scanProbe_fallback_on_any_failure "acme" (Except.ok 404)).2.1 404 rfl (by decide),
   (scanProbe_fallback_on_any_failure "acme" (Except.error "network down")).2.2
     "network down" rfl⟩

/-! C7.  Window bounds. -/

theorem storeGet_windowFold (o : GithubOracle) (repos : List GithubRepoData) (now : Int)
    (st : MetricsStore) (kd : String × Nat) (hmem : kd ∈ periodsList) :
    storeGet
      (periodsList.foldl
        (fun s kd => storeSet s kd.1 (windowPassOne o repos now kd.1 kd.2)) st) kd.1 =
      some (windowPassOne o repos now kd.1 kd.2) := by
  simp only [periodsList, List.mem_cons, List.not_mem_nil, or_false] at hmem
  simp only [periodsList, List.foldl]
  rcases hmem with h | h | h | h | h | h <;> subst h
  · rw [storeGet_storeSet_other _ _ _ _ (by decide),
      storeGet_storeSet_other _ _ _ _ (by decide),
      storeGet_storeSet_other _ _ _ _ (by decide),
      storeGet_storeSet_other _ _ _ _ (by decide),
      storeGet_storeSet_other _ _ _ _ (by decide), storeGet_storeSet_self]
  · rw [storeGet_storeSet_other _ _ _ _ (by decide),
      storeGet_storeSet_other _ _ _ _ (by decide),
      storeGet_storeSet_other _ _ _ _ (by decide),
      storeGet_storeSet_other _ _ _ _ (by decide), storeGet_storeSet_self]
  · rw [storeGet_storeSet_other _ _ _ _ (by decide),
      storeGet_storeSet_other _ _ _ _ (by decide),
      storeGet_storeSet_other _ _ _ _ (by decide), storeGet_storeSet_self]
  · rw [storeGet_storeSet_other _ _ _ _ (by decide),
      storeGet_storeSet_other _ _ _ _ (by decide), storeGet_storeSet_self]
  · rw [storeGet_storeSet_other _ _ _ _ (by decide), storeGet_storeSet_self]
  · rw [storeGet_storeSet_self]

/-- C7: for each of the six windows (7, 30, 60, 90, 180, 365 days) the
record built by the window pass has `periodEndDate = now`,
`periodStartDate = now - N days`, and their difference is exactly N days;
and on a successful refresh (valid configuration, non-empty repository
argument) exactly this record is persisted under the window's key. -/
theorem windowPeriodBounds (o : GithubOracle) (repos : List GithubRepoData) (now : Int)
    (store : MetricsStore) (cfgRepos : List GithubRepoData) (r0 : GithubRepoData)
    (rest : List GithubRepoData) :
    (∀ kd, kd ∈ periodsList →
      (windowPassOne o repos now kd.1 kd.2).periodEndDate = some now ∧
      (windowPassOne o repos now kd.1 kd.2).periodStartDate =
        some (now - (kd.2 : Int) * msPerDay) ∧
      (windowPassOne o repos now kd.1 kd.2).periodEndDate.getD 0 -
        (windowPassOne o repos now kd.1 kd.2).periodStartDate.getD 0 =
        (kd.2 : Int) * msPerDay) ∧
    (∀ kd, kd ∈ periodsList →
      storeGet (refreshGithubMetricsModel store
          (some ⟨some "https://github.com/octo", some "tok", cfgRepos⟩)
          (some (r0 :: rest)) o now).store kd.1 =
        some (windowPassOne o (r0 :: rest) now kd.1 kd.2)) := by
  constructor
  · intro kd _
    refine ⟨rfl, rfl, ?_⟩
    simp only [windowPassOne, Option.getD_some]
    ring
  · intro kd hmem
    exact storeGet_windowFold o (r0 :: rest) now _ kd hmem

/-- C7 witness: the 30-day window bounds and persistence evaluated at
concrete inputs. -/
theorem windowPeriodBounds_witness :
    ("30days", 30) ∈ periodsList ∧
    (windowPassOne trivialOracle [repoAlpha] 0 "30days" 30).periodEndDate = some 0 ∧
    (windowPassOne trivialOracle [repoAlpha] 0 "30days" 30).periodStartDate =
      some (0 - (30 : Int) * msPerDay) ∧
    storeGet (refreshGithubMetricsModel []
        (some ⟨some "https://github.com/octo", some "tok", []⟩)
        (some (repoAlpha :: [])) trivialOracle 0).store "30days" =
      some (windowPassOne trivialOracle (repoAlpha :: []) 0 "30days" 30) := by
  have hmem : (("30days", 30) : String × Nat) ∈ periodsList := by decide
  have h := windowPeriodBounds trivialOracle [repoAlpha] 0 [] [] repoAlpha []
  exact ⟨hmem, (h.1 ("30days", 30) hmem).1, (h.1 ("30days", 30) hmem).2.1,
    h.2 ("30days", 30) hmem⟩

/-! C10.  Unique-committer set consistency. -/

theorem insertUnique_nodup (s : List String) (x : String) (h : s.Nodup) :
    (insertUnique s x).Nodup := by
  unfold insertUnique
  by_cases hx : x ∈ s
  · simpa [hx] using h
  · simp only [hx, if_false]
    exact h.append (List.nodup_singleton x) (by
      intro a ha hb
      simp only [List.mem_singleton] at hb
      subst hb
      exact hx ha)

theorem processCommit_snd_nodup (fullName : String) (detail : String → String → Option Nat)
    (acc : Nat × List String) (c : ApiCommitEntry) (h : acc.2.Nodup) :
    (processCommit fullName detail acc c).2.Nodup := by
  simp only [processCommit]
  split
  · exact h
  · exact insertUnique_nodup _ _ h

theorem foldl_processCommit_nodup (fullName : String)
    (detail : String → String → Option Nat) (cs : List ApiCommitEntry) :
    ∀ acc : Nat × List String, acc.2.Nodup →
      (cs.foldl (processCommit fullName detail) acc).2.Nodup := by
  induction cs with
  | nil => exact fun acc h => h
  | cons c rest ih =>
      intro acc h
      exact ih _ (processCommit_snd_nodup fullName detail acc c h)

theorem commitRepoLoop_nodup (fullName : String) (detail : String → String → Option Nat)
    (pages : List CommitPage) :
    ∀ acc : Nat × List String, acc.2.Nodup →
      (commitRepoLoop fullName detail pages acc).2.Nodup := by
  induction pages with
  | nil => exact fun acc h => h
  | cons p rest ih =>
      intro acc h
      simp only [commitRepoLoop]
      split
      · exact h
      · split
        · exact h
        · split
          · exact ih _ (foldl_processCommit_nodup fullName detail _ acc h)
          · exact foldl_processCommit_nodup fullName detail _ acc h

theorem windowFold_committers_nodup (o : GithubOracle) (key : String)
    (repos : List GithubRepoData) :
    ∀ acc : WindowAcc, acc.committers.Nodup →
      (repos.foldl (windowRepoStep o key) acc).committers.Nodup := by
  induction repos with
  | nil => exact fun acc h => h
  | cons r rest ih =>
      intro acc h
      apply ih
      simp only [windowRepoStep]
      split
      · exact h
      · exact commitRepoLoop_nodup _ o.commitDetail _ _ h

/-- C10: in every window record, the stored unique-committer names are
pairwise distinct and the stored committer count is exactly their number
(both come from the same insertion-ordered set). -/
theorem windowCommitterSetConsistent (o : GithubOracle) (repos : List GithubRepoData)
    (now : Int) (key : String) (days : Nat) :
    ((windowPassOne o repos now key days).uniqueCommitterNames_period.getD []).Nodup ∧
    (windowPassOne o repos now key days).uniqueCommitters_period =
      some ((windowPassOne o repos now key days).uniqueCommitterNames_period.getD []).length := by
  constructor
  · simp only [windowPassOne, Option.getD_some]
    exact windowFold_committers_nodup o key repos ⟨0, [], []⟩ List.nodup_nil
  · rfl

/-! C5.  Language histogram totals. -/

theorem langFold_inv (langs : List (String × Nat)) :
    ∀ a : SnapshotAcc, a.totalBytes = sumVals a.bytesByLanguage →
      (langs.foldl (fun a p =>
        { a with bytesByLanguage := addLang a.bytesByLanguage p.1 p.2,
                 totalBytes := a.totalBytes + p.2 }) a).totalBytes =
      sumVals ((langs.foldl (fun a p =>
        { a with bytesByLanguage := addLang a.bytesByLanguage p.1 p.2,
                 totalBytes := a.totalBytes + p.2 }) a).bytesByLanguage) := by
  induction langs with
  | nil => exact fun a h => h
  | cons p rest ih =>
      intro a h
      apply ih
      simp only [sumVals_addLang, h]

theorem langTagStep_inv (o : GithubOracle) (now : Int) (r : GithubRepoData)
    (acc : SnapshotAcc) (h : acc.totalBytes = sumVals acc.bytesByLanguage) :
    (langTagStep o now acc r).totalBytes = sumVals (langTagStep o now acc r).bytesByLanguage := by
  cases hfn : r.fullName with
  | none => simpa [langTagStep, hfn] using h
  | some fn =>
      simp only [langTagStep, hfn]
      cases hlf : o.langFetch fn with
      | none =>
          cases htf : o.tagsFetch fn with
          | none => simpa using h
          | some tags => simpa using h
      | some langs =>
          cases htf : o.tagsFetch fn with
          | none => simpa using langFold_inv langs _ (by simpa using h)
          | some tags => simpa using langFold_inv langs _ (by simpa using h)

theorem langTagPass_inv (o : GithubOracle) (now : Int) (repos : List GithubRepoData) :
    ∀ acc : SnapshotAcc, acc.totalBytes = sumVals acc.bytesByLanguage →
      (repos.foldl (langTagStep o now) acc).totalBytes =
        sumVals ((repos.foldl (langTagStep o now) acc).bytesByLanguage) := by
  induction repos with
  | nil => exact fun acc h => h
  | cons r rest ih =>
      intro acc h
      exact ih _ (langTagStep_inv o now r acc h)

/-- Oracle for the two-repository language scenario: `octo/alpha` reports
Go 1000 bytes and TS 500 bytes, `octo/beta` reports Go 500 bytes. -/
def langScenarioOracle : GithubOracle :=
  { trivialOracle with
      langFetch := fun fn =>
        if fn = "octo/alpha" then some [("Go", 1000), ("TS", 500)]
        else if fn = "octo/beta" then some [("Go", 500)] else none }

/-- C5: the snapshot pass keeps total bytes equal to the sum of the
per-language bytes; the persisted snapshot's estimated total line count is
round(total bytes / 50); and on the two-repository scenario the persisted
`overall_snapshot` has total bytes 2000, histogram Go 1500 / TS 500, and
estimated lines 40. -/
theorem snapshotLanguageTotals :
    (∀ (o : GithubOracle) (repos : List GithubRepoData) (now : Int),
      (langTagPass o repos now).totalBytes =
        sumVals (langTagPass o repos now).bytesByLanguage) ∧
    (∀ (snap : SnapshotAcc) (cl : CloneAcc) (now : Int),
      (buildOverallSnapshot snap cl now).apiEstimatedTotalLines =
        some (jsRoundDiv snap.totalBytes ESTIMATED_BYTES_PER_LINE)) ∧
    ((storeGet (refreshGithubMetricsModel [] (some emptySelectionConfig)
        (some [repoAlpha, repoBeta]) langScenarioOracle 0).store
        "overall_snapshot").getD emptyPeriod).apiTotalBytes = some 2000 ∧
    ((storeGet (refreshGithubMetricsModel [] (some emptySelectionConfig)
        (some [repoAlpha, repoBeta]) langScenarioOracle 0).store
        "overall_snapshot").getD emptyPeriod).apiBytesByLanguage =
      some [("Go", 1500), ("TS", 500)] ∧
    ((storeGet (refreshGithubMetricsModel [] (some emptySelectionConfig)
        (some [repoAlpha, repoBeta]) langScenarioOracle 0).store
        "overall_snapshot").getD emptyPeriod).apiEstimatedTotalLines = some 40 := by
  refine ⟨?_, ?_, ?_, ?_, ?_⟩
  · intro o repos now
    exact langTagPass_inv o now repos ⟨[], 0, [], []⟩ rfl
  · intro snap cl now
    rfl
  · decide
  · decide
  · decide

/-! C9.  Temporary clone directory cleanup. -/

/-- A repository enters the clone body (and gets a temp directory) exactly
when it has both a url and a fullName. -/
def cloneEligible (r : GithubRepoData) : Bool := r.url.isSome && r.fullName.isSome

/-- Number of repositories for which a temp directory is created. -/
def cloneCount (repos : List GithubRepoData) : Nat := (repos.filter cloneEligible).length

/-- The trace `created s, removed s, created s+1, removed s+1, ...`: each
directory is removed before the next repository's directory is created. -/
def pairedTrace : Nat → Nat → List FsEvent
  | _, 0 => []
  | start, n + 1 => FsEvent.created start :: FsEvent.removed start :: pairedTrace (start + 1) n

/-- Directories created during a trace. -/
def createdDirs (tr : List FsEvent) : List Nat :=
  tr.filterMap fun e => match e with | .created d => some d | .removed _ => none

/-- Directories removed during a trace. -/
def removedDirs (tr : List FsEvent) : List Nat :=
  tr.filterMap fun e => match e with | .removed d => some d | .created _ => none

theorem clonePassStep_trace (o : GithubOracle) (now : Int) (acc : CloneAcc)
    (r : GithubRepoData) :
    (clonePassStep o now acc r).trace =
      (if cloneEligible r then
        acc.trace ++ [FsEvent.created acc.nextDirId, FsEvent.removed acc.nextDirId]
      else acc.trace) ∧
    (clonePassStep o now acc r).nextDirId =
      (if cloneEligible r then acc.nextDirId + 1 else acc.nextDirId) := by
  cases hu : r.url with
  | none => simp [clonePassStep, cloneEligible, hu]
  | some u =>
      cases hfn : r.fullName with
      | none => simp [clonePassStep, cloneEligible, hu, hfn]
      | some fn =>
          cases hc : o.cloneRun fn with
          | none => simp [clonePassStep, cloneEligible, hu, hfn, hc]
          | some res => simp [clonePassStep, cloneEligible, hu, hfn, hc]

theorem cloneCount_cons (r : GithubRepoData) (rest : List GithubRepoData) :
    cloneCount (r :: rest) =
      if cloneEligible r then cloneCount rest + 1 else cloneCount rest := by
  by_cases h : cloneEligible r <;> simp [cloneCount, List.filter, h]

theorem cloneFold_trace (o : GithubOracle) (now : Int) (repos : List GithubRepoData) :
    ∀ acc : CloneAcc,
      (repos.foldl (clonePassStep o now) acc).trace =
        acc.trace ++ pairedTrace acc.nextDirId (cloneCount repos) ∧
      (repos.foldl (clonePassStep o now) acc).nextDirId =
        acc.nextDirId + cloneCount repos := by
  induction repos with
  | nil => intro acc; simp [pairedTrace, cloneCount, List.filter]
  | cons r rest ih =>
      intro acc
      have hstep := clonePassStep_trace o now acc r
      have hrec := ih (clonePassStep o now acc r)
      rw [cloneCount_cons]
      by_cases h : cloneEligible r
      · simp only [h, if_pos] at hstep ⊢
        constructor
        · rw [List.foldl_cons, hrec.1, hstep.1, hstep.2]
          simp [pairedTrace, List.append_assoc]
        · rw [List.foldl_cons, hrec.2, hstep.2]
          omega
      · simp only [Bool.not_eq_true] at h
        simp only [h, Bool.false_eq_true, if_false] at hstep ⊢
        constructor
        · rw [List.foldl_cons, hrec.1, hstep.1, hstep.2]
        · rw [List.foldl_cons, hrec.2, hstep.2]

theorem pairedTrace_created_eq_removed : ∀ (n s : Nat),
    createdDirs (pairedTrace s n) = removedDirs (pairedTrace s n) := by
  intro n
  induction n with
  | zero => intro s; rfl
  | succ n ih =>
      intro s
      simp only [pairedTrace, createdDirs, removedDirs, List.filterMap] at ih ⊢
      rw [ih]

/-- C9: the filesystem trace of a full cloned-LOC run is exactly
created/removed pairs — for every repository iteration that creates a temp
directory the removal happens on every exit path (success or failure)
before the next directory is created — so the set of directories created
equals the set removed and none remains after the run. -/
theorem cloneTempDirsAlwaysRemoved (o : GithubOracle) (repos : List GithubRepoData)
    (now : Int) :
    (clonePass o repos now).trace = pairedTrace 0 (cloneCount repos) ∧
    createdDirs (clonePass o repos now).trace = removedDirs (clonePass o repos now).trace := by
  have h := (cloneFold_trace o now repos ⟨0, [], [], none, [], 0⟩).1
  constructor
  · simpa [clonePass] using h
  · rw [show (clonePass o repos now).trace = pairedTrace 0 (cloneCount repos) from by
      simpa [clonePass] using h]
    exact pairedTrace_created_eq_removed (cloneCount repos) 0

/-! C4.  Missing-configuration short circuit. -/

/-- The `!githubConfig || !githubConfig.accessToken || !githubConfig.rootUrl`
test of `refreshGithubMetrics`. -/
def githubConfigMissing : Option GithubConfigData → Bool
  | none => true
  | some cfg => !(jsTruthy cfg.accessToken && jsTruthy cfg.rootUrl)

theorem refreshModel_configMissing (store : MetricsStore) (config : Option GithubConfigData)
    (reposArg : Option (List GithubRepoData)) (o : GithubOracle) (now : Int)
    (h : githubConfigMissing config = true) :
    refreshGithubMetricsModel store config reposArg o now = configMissingBranch store now := by
  cases config with
  | none => rfl
  | some cfg =>
      simp only [githubConfigMissing, Bool.not_eq_true', Bool.not_eq_eq_eq_not] at h
      simp [refreshGithubMetricsModel, refreshEntry, refreshPipeline, h]

/-- C4: when the root reference or credential is missing (or empty), the
refresh returns failure, the `overall_snapshot` record becomes the previous
one annotated with the informational fallback message, every other period
key is untouched, and the result is independent of the upstream oracle
(no network call influences it). -/
theorem refreshShortCircuitsOnMissingConfig (store : MetricsStore)
    (config : Option GithubConfigData) (reposArg : Option (List GithubRepoData))
    (o o' : GithubOracle) (now : Int) (h : githubConfigMissing config = true) :
    (refreshGithubMetricsModel store config reposArg o now).success = false ∧
    storeGet (refreshGithubMetricsModel store config reposArg o now).store
        "overall_snapshot" =
      some { (storeGet store "overall_snapshot").getD emptyPeriod with
             info := some "GitHub configuration (Root URL or Access Token) not fully configured for this team.",
             apiLastRefreshed := some now } ∧
    (∀ k, k ≠ "overall_snapshot" →
      storeGet (refreshGithubMetricsModel store config reposArg o now).store k =
        storeGet store k) ∧
    refreshGithubMetricsModel store config reposArg o' now =
      refreshGithubMetricsModel store config reposArg o now := by
  rw [refreshModel_configMissing store config reposArg o now h,
    refreshModel_configMissing store config reposArg o' now h]
  refine ⟨rfl, ?_, ?_, rfl⟩
  · exact storeGet_storeSet_self store "overall_snapshot" _
  · intro k hk
    exact storeGet_storeSet_other store "overall_snapshot" k _ hk

/-- C4 witness: missing configuration evaluated on a seeded store. -/
theorem refreshShortCircuitsOnMissingConfig_witness :
    githubConfigMissing none = true ∧
    (refreshGithubMetricsModel [("7days", emptyPeriod)] none none trivialOracle 0).success =
      false ∧
    storeGet (refreshGithubMetricsModel [("7days", emptyPeriod)] none none trivialOracle
        0).store "overall_snapshot" =
      some { (storeGet [("7days", emptyPeriod)] "overall_snapshot").getD emptyPeriod with
             info := some "GitHub configuration (Root URL or Access Token) not fully configured for this team.",
             apiLastRefreshed := some 0 } ∧
    storeGet (refreshGithubMetricsModel [("7days", emptyPeriod)] none none trivialOracle
        0).store "7days" = storeGet [("7days", emptyPeriod)] "7days" := by
  have h := refreshShortCircuitsOnMissingConfig [("7days", emptyPeriod)] none none
    trivialOracle trivialOracle 0 (by decide)
  exact ⟨by decide, h.1, h.2.1, h.2.2.1 "7days" (by decide)⟩

/-! C3.  No exception escapes the public entry point. -/

/-- C3: whenever the pipeline raises (whatever partial store it left
behind), the entry point still returns a well-formed failure result: success
is false, the message is non-empty, the returned data and the persisted
`overall_snapshot` are the pre-call record (the mid-pipeline store only if
the pre-call read was empty) with the failure annotation merged in — all its
other fields preserved — and no other persisted key is disturbed beyond
what the pipeline itself wrote. -/
theorem refreshNeverThrowsPastEntry (store ps : MetricsStore) (e : String) (now : Int)
    (pipe : MetricsStore → MetricsStore × Except String RefreshOutcome)
    (h : pipe store = (ps, Except.error e)) :
    (refreshEntry store pipe now).success = false ∧
    (refreshEntry store pipe now).message.isEmpty = false ∧
    storeGet (refreshEntry store pipe now).store "overall_snapshot" =
      some { (storeGet (if store.isEmpty then ps else store)
               "overall_snapshot").getD emptyPeriod with
             info := some ("Refresh failed: " ++ (refreshEntry store pipe now).message),
             apiLastRefreshed := some now } ∧
    (∀ k, k ≠ "overall_snapshot" →
      storeGet (refreshEntry store pipe now).store k = storeGet ps k) ∧
    (refreshEntry store pipe now).data =
      storeSet (if store.isEmpty then ps else store) "overall_snapshot"
        { (storeGet (if store.isEmpty then ps else store)
            "overall_snapshot").getD emptyPeriod with
          info := some ("Refresh failed: " ++ (refreshEntry store pipe now).message) } := by
  simp only [refreshEntry, h]
  refine ⟨rfl, ?_, ?_, ?_, rfl⟩
  · simp only [refreshCatchHandler]
    cases he : e.isEmpty
    · simpa using he
    · rw [if_pos rfl]
      decide
  · simp only [refreshCatchHandler]
    exact storeGet_storeSet_self ps "overall_snapshot" _
  · intro k hk
    simp only [refreshCatchHandler]
    exact storeGet_storeSet_other ps "overall_snapshot" k _ hk

/-- Pipeline fixture that always raises. -/
def errorPipe : MetricsStore → MetricsStore × Except String RefreshOutcome :=
  fun st => (st, Except.error "boom")

/-- Store fixture holding one previously persisted snapshot. -/
def seededStore : MetricsStore := [("overall_snapshot", defaultOverallRecord)]

/-- C3 witness: a raising pipeline over a seeded store, evaluated at a
concrete failure. -/
theorem refreshNeverThrowsPastEntry_witness :
    (refreshEntry seededStore errorPipe 0).success = false ∧
    (refreshEntry seededStore errorPipe 0).message.isEmpty = false ∧
    storeGet (refreshEntry seededStore errorPipe 0).store "overall_snapshot" =
      some { (storeGet seededStore "overall_snapshot").getD emptyPeriod with
             info := some ("Refresh failed: " ++ (refreshEntry seededStore errorPipe 0).message),
             apiLastRefreshed := some 0 } ∧
    storeGet (refreshEntry seededStore errorPipe 0).store "30days" =
      storeGet seededStore "30days" := by
  have h := refreshNeverThrowsPastEntry seededStore seededStore "boom" 0 errorPipe rfl
  exact ⟨h.1, h.2.1, h.2.2.1, h.2.2.2.1 "30days" (by decide)⟩

/-! C8.  Every period key resolves after a refresh. -/

/-- C8: the consolidated read-back always yields a record for
`overall_snapshot` and for each of the six window keys, whatever the store
holds (absent keys get informational defaults); and a refresh with no
repositories configured clears the store, writes exactly one informational
`overall_snapshot`, writes no window record, and returns success. -/
theorem everyPeriodKeyResolves (store : MetricsStore) (o : GithubOracle) (now : Int) :
    (storeGet (getGithubMetricsModel store) "overall_snapshot").isSome = true ∧
    (storeGet (getGithubMetricsModel store) "7days").isSome = true ∧
    (storeGet (getGithubMetricsModel store) "30days").isSome = true ∧
    (storeGet (getGithubMetricsModel store) "60days").isSome = true ∧
    (storeGet (getGithubMetricsModel store) "90days").isSome = true ∧
    (storeGet (getGithubMetricsModel store) "180days").isSome = true ∧
    (storeGet (getGithubMetricsModel store) "365days").isSome = true ∧
    (refreshGithubMetricsModel store (some emptySelectionConfig) none o now).success = true ∧
    (refreshGithubMetricsModel store (some emptySelectionConfig) none o now).store =
      [("overall_snapshot",
        { emptyPeriod with
            info := some "No repositories selected or configured for this team. GitHub metrics cleared.",
            apiLastRefreshed := some now })] ∧
    storeGet (refreshGithubMetricsModel store (some emptySelectionConfig) none o now).data
        "overall_snapshot" =
      some { emptyPeriod with
             info := some "No repositories selected or configured for this team. GitHub metrics cleared." } ∧
    storeGet (refreshGithubMetricsModel store (some emptySelectionConfig) none o now).store
        "7days" = none ∧
    storeGet (refreshGithubMetricsModel store (some emptySelectionConfig) none o now).store
        "30days" = none ∧
    storeGet (refreshGithubMetricsModel store (some emptySelectionConfig) none o now).store
        "60days" = none ∧
    storeGet (refreshGithubMetricsModel store (some emptySelectionConfig) none o now).store
        "90days" = none ∧
    storeGet (refreshGithubMetricsModel store (some emptySelectionConfig) none o now).store
        "180days" = none ∧
    storeGet (refreshGithubMetricsModel store (some emptySelectionConfig) none o now).store
        "365days" = none :=
  ⟨rfl, rfl, rfl, rfl, rfl, rfl, rfl, rfl, rfl, rfl, rfl, rfl, rfl, rfl, rfl, rfl⟩

/-! C6.  Committer identity resolution and line additions. -/

/-- Scenario commit with list-level stats additions 10, by alice. -/
def commitOne : ApiCommitEntry := ⟨some "alice", none, none, none, some 10, some "s1"⟩

/-- Scenario commit with no list-level stats, detail fetch yields 5, by
bob. -/
def commitTwo : ApiCommitEntry := ⟨some "bob", none, none, none, none, some "s2"⟩

/-- Scenario commit with no list-level stats, detail fetch yields 0, by
alice again. -/
def commitThree : ApiCommitEntry := ⟨some "alice", none, none, none, none, some "s3"⟩

/-- Oracle for the 30-day window scenario: one page with the three commits
and no next link; detail fetches for s2 and s3 return 5 and 0 additions. -/
def commitScenarioOracle : GithubOracle :=
  { trivialOracle with
      commitPages := fun fn key =>
        if fn = "octo/alpha" ∧ key = "30days" then
          [⟨true, some [commitOne, commitTwo, commitThree], none⟩]
        else [],
      commitDetail := fun _ sha =>
        if sha = "s2" then some 5 else if sha = "s3" then some 0 else none }

/-- C6: committer identity resolution tries API author login, API committer
login, raw author name, raw committer name in that order; a commit none of
whose sources resolve contributes nothing to the unique-committer set; a
commit without list-level stats whose detail fetch fails contributes zero
additions; and the 30-day scenario (3 commits by 2 logins, stats 10 and
detail fetches 5 and 0) yields linesAdded 15 and 2 unique committers. -/
theorem commitIdentityAndAdditions :
    (∀ (c : ApiCommitEntry) (a : String), c.authorLogin = some a → a.isEmpty = false →
      resolveCommitterLogin c = a) ∧
    (∀ (c : ApiCommitEntry) (b : String), c.authorLogin = none →
      c.committerLogin = some b → b.isEmpty = false → resolveCommitterLogin c = b) ∧
    (∀ (c : ApiCommitEntry) (nm : String), c.authorLogin = none →
      c.committerLogin = none → c.commitAuthorName = some nm → nm.isEmpty = false →
      resolveCommitterLogin c = nm) ∧
    (∀ (c : ApiCommitEntry) (nm : String), c.authorLogin = none →
      c.committerLogin = none → c.commitAuthorName = none →
      c.commitCommitterName = some nm → nm.isEmpty = false →
      resolveCommitterLogin c = nm) ∧
    (∀ (c : ApiCommitEntry) (fn : String) (det : String → String → Option Nat)
        (acc : Nat × List String), c.authorLogin = none → c.committerLogin = none →
      c.commitAuthorName = none → c.commitCommitterName = none →
      (processCommit fn det acc c).2 = acc.2) ∧
    (∀ (c : ApiCommitEntry) (fn sha : String) (det : String → String → Option Nat),
      c.statsAdditions = none → c.sha = some sha → det fn sha = none →
      commitAdditions fn det c = 0) ∧
    (windowPassOne commitScenarioOracle [repoAlpha] 0 "30days" 30).linesAdded_period =
      some 15 ∧
    (windowPassOne commitScenarioOracle [repoAlpha] 0 "30days" 30).uniqueCommitters_period =
      some 2 ∧
    (windowPassOne commitScenarioOracle [repoAlpha] 0 "30days"
        30).uniqueCommitterNames_period = some ["alice", "bob"] := by
  refine ⟨?_, ?_, ?_, ?_, ?_, ?_, by decide, by decide, by decide⟩
  · intro c a h1 h2
    simp [resolveCommitterLogin, jsOr, h1, h2]
  · intro c b h1 h2 h3
    simp [resolveCommitterLogin, jsOr, h1, h2, h3]
  · intro c nm h1 h2 h3 h4
    simp [resolveCommitterLogin, jsOr, h1, h2, h3, h4]
  · intro c nm h1 h2 h3 h4 h5
    simp [resolveCommitterLogin, jsOr, h1, h2, h3, h4, h5]
  · intro c fn det acc h1 h2 h3 h4
    simp [processCommit, resolveCommitterLogin, jsOr, h1, h2, h3, h4]
  · intro c fn sha det h1 h2 h3
    simp [commitAdditions, h1, h2, h3]

/-- C6 witness: the resolution order, skip, and detail-failure facts
evaluated at concrete commits. -/
theorem commitIdentityAndAdditions_witness :
    resolveCommitterLogin commitOne = "alice" ∧
    resolveCommitterLogin ⟨none, some "carol", none, none, none, none⟩ = "carol" ∧
    resolveCommitterLogin ⟨none, none, some "dave", none, none, none⟩ = "dave" ∧
    resolveCommitterLogin ⟨none, none, none, some "erin", none, none⟩ = "erin" ∧
    (processCommit "octo/alpha" (fun _ _ => none) (0, ["alice"])
      ⟨none, none, none, none, some 3, some "s9"⟩).2 = ["alice"] ∧
    commitAdditions "octo/alpha" (fun _ _ => none) commitTwo = 0 :=
  ⟨commitIdentityAndAdditions.1 commitOne "alice" rfl rfl,
   commitIdentityAndAdditions.2.1 ⟨none, some "carol", none, none, none, none⟩ "carol"
     rfl rfl rfl,
   commitIdentityAndAdditions.2.2.1 ⟨none, none, some "dave", none, none, none⟩ "dave"
     rfl rfl rfl rfl,
   commitIdentityAndAdditions.2.2.2.1 ⟨none, none, none, some "erin", none, none⟩ "erin"
     rfl rfl rfl rfl rfl,
   commitIdentityAndAdditions.2.2.2.2.1 ⟨none, none, none, none, some 3, some "s9"⟩
     "octo/alpha" (fun _ _ => none) (0, ["alice"]) rfl rfl rfl rfl,
   commitIdentityAndAdditions.2.2.2.2.2.1 commitTwo "octo/alpha" "s2" (fun _ _ => none)
     rfl rfl rfl⟩

end TeamVisionK
